import Mathlib

/-!
Verification of the core of the lib6502 6502-emulator library.

The repository carries two generations of the CPU implementation:

* namespace `Lib6502` embeds the `Cpu` of `lib.rs` together with
  `addressing.rs` and `instructions.rs` (packed u8 status register driven
  by single-bit masks, a 256-entry `INSTRUCTION_LIST` decode table and a
  `clock` countdown loop);
* namespace `Core6502` embeds the generic `CPU<B: Bus>` of `cpu.rs`
  together with `registers.rs` and `addressing_modes.rs` (status register
  as eight booleans, a `step` loop that sums base, addressing and
  instruction cycles).

Machine integers are modelled as `Nat` with explicit masks and `% 2^w`
reductions exactly where the Rust code truncates or wraps.  The bus trait
is modelled as the memory function `mem : Nat → Nat` carried inside the
CPU state; a bus write is a pointwise function update.
-/

namespace Lib6502

/-- CPU variants (`Variant` in lib.rs). -/
inductive Variant where
  | CMOS
  | NES
  | NMOS
deriving DecidableEq

/-- Addressing-mode tags (`AddressingMode` in addressing.rs). -/
inductive AddressingMode where
  | None
  | Absolute
  | AbsoluteX
  | AbsoluteY
  | Immediate
  | Implied
  | Indirect
  | IndexedIndirect
  | IndirectIndexed
  | Relative
  | ZeroPage
  | ZeroPageX
  | ZeroPageY
deriving DecidableEq

/-- Bit masks of the `StatusFlags` bitflags in lib.rs. -/
def carryBit : Nat := 0x01

/-- Zero flag mask (bit 1). -/
def zeroBit : Nat := 0x02

/-- Interrupt-disable flag mask (bit 2). -/
def interruptDisableBit : Nat := 0x04

/-- Decimal flag mask (bit 3). -/
def decimalBit : Nat := 0x08

/-- Break flag mask (bit 4). -/
def breakBit : Nat := 0x10

/-- Unused flag mask (bit 5). -/
def unusedBit : Nat := 0x20

/-- Overflow flag mask (bit 6). -/
def overflowBit : Nat := 0x40

/-- Negative flag mask (bit 7). -/
def negativeBit : Nat := 0x80

/-- The `Cpu` state of lib.rs with its bound bus.  The trace-only fields
(`current_instruction_string`, `debug`, `enable_illegal_opcodes`) are
omitted: they never influence the architectural state touched by the
claims. -/
structure Cpu where
  a : Nat
  x : Nat
  y : Nat
  sp : Nat
  pc : Nat
  status : Nat
  cycles : Nat
  addr_abs : Nat
  addr_rel : Nat
  addr_mode : AddressingMode
  opcode : Nat
  fetched_data : Nat
  variant : Variant
  mem : Nat → Nat

/-- Cpu::new of lib.rs: a fresh CPU bound to a bus (all registers zero,
variant CMOS). -/
def new (m : Nat → Nat) : Cpu :=
  { a := 0, x := 0, y := 0, sp := 0, pc := 0, status := 0, cycles := 0,
    addr_abs := 0, addr_rel := 0, addr_mode := AddressingMode.None,
    opcode := 0, fetched_data := 0, variant := Variant.CMOS, mem := m }

/-- Cpu::read: a bus read. -/
def read (c : Cpu) (address : Nat) : Nat := c.mem address

/-- Cpu::write: a bus write. -/
def write (c : Cpu) (address value : Nat) : Cpu :=
  { c with mem := fun i => if i = address then value else c.mem i }

/-- Cpu::read_u16: little-endian word read, low byte then high byte. -/
def read_u16 (c : Cpu) (address : Nat) : Nat :=
  let lo := read c address
  let hi := read c (address + 1)
  (hi <<< 8) ||| lo

/-- Cpu::set_flag.  The masks are single bits, so the u8 complement
`!flag.bits()` is `255 - flag`. -/
def set_flag (c : Cpu) (flag : Nat) (value : Bool) : Cpu :=
  if value then { c with status := c.status ||| flag }
  else { c with status := c.status &&& (255 - flag) }

/-- Cpu::get_flag: whether the masked bit is non-zero. -/
def get_flag (c : Cpu) (flag : Nat) : Bool :=
  decide (c.status &&& flag ≠ 0)

/-- Cpu::decrement_sp: u8 wrapping decrement of the stack pointer. -/
def decrement_sp (c : Cpu) : Cpu :=
  { c with sp := (c.sp + 255) % 256 }

/-- Cpu::push: store at 0x100 + SP, then decrement SP. -/
def push (c : Cpu) (value : Nat) : Cpu :=
  decrement_sp (write c (0x100 + c.sp) value)

/-- Cpu::push_word: push the high byte, then the low byte. -/
def push_word (c : Cpu) (value : Nat) : Cpu :=
  push (push c ((value >>> 8) &&& 0xFF)) (value &&& 0xFF)

/-- Modelled from the spec: the `addresses` module holding the vector
constants is not under src; the spec fixes the reset vector at 0xFFFC. -/
def RESET_VECTOR : Nat := 0xFFFC

/-- Modelled from the spec: the IRQ/BRK vector is 0xFFFE. -/
def IRQ_VECTOR : Nat := 0xFFFE

/-- Modelled from the spec: the NMI vector is 0xFFFA. -/
def NMI_VECTOR : Nat := 0xFFFA

/-- Cpu::reset of lib.rs. -/
def reset (c : Cpu) : Cpu :=
  { c with
    a := 0, x := 0, y := 0, sp := 0xFD,
    pc := read_u16 c RESET_VECTOR,
    status := 0 ||| unusedBit ||| interruptDisableBit,
    cycles := 8 }

/-- Cpu::do_interrupt of lib.rs, written statement for statement. -/
def do_interrupt (c : Cpu) (vector : Nat) : Cpu :=
  let c := push_word c c.pc
  let c := set_flag c breakBit false
  let c := set_flag c unusedBit true
  let c := set_flag c breakBit true
  let c := set_flag c interruptDisableBit true
  let c := push c c.status
  let c := set_flag c interruptDisableBit false
  let c := { c with pc := read_u16 c vector }
  { c with cycles := 7 }

/-- Cpu::irq: serviced only when the interrupt-disable flag is clear. -/
def irq (c : Cpu) : Cpu :=
  if !(get_flag c interruptDisableBit) then do_interrupt c IRQ_VECTOR else c

/-- Cpu::nmi: always serviced. -/
def nmi (c : Cpu) : Cpu := do_interrupt c NMI_VECTOR

/-- Cpu::fetch: reads the operand byte at `addr_abs` unless the mode is
Implied; returns the fetched byte together with the updated state. -/
def fetch (c : Cpu) : Nat × Cpu :=
  let c :=
    if c.addr_mode ≠ AddressingMode.Implied then
      { c with fetched_data := read c c.addr_abs }
    else c
  (c.fetched_data, c)

/-- Cpu::set_zn_flags in the value form used by instructions.rs. -/
def set_zn_flags (c : Cpu) (value : Nat) : Cpu :=
  set_flag (set_flag c zeroBit (decide (value = 0))) negativeBit
    (decide (value &&& 0x80 ≠ 0))

/-- AddressingMode::execute of addressing.rs.  Index additions and PC
increments wrap at 2^16 exactly as the u16 arithmetic of the source. -/
def AddressingMode.execute (m : AddressingMode) (c : Cpu) : Bool × Cpu :=
  match m with
  | AddressingMode.None => (false, c)
  | AddressingMode.Absolute =>
      let address := read_u16 c c.pc
      (false, { c with addr_abs := address, pc := (c.pc + 2) % 65536 })
  | AddressingMode.AbsoluteX =>
      let address := read_u16 c c.pc
      let c := { c with addr_abs := (address + c.x) % 65536,
                        pc := (c.pc + 2) % 65536 }
      (decide (c.addr_abs &&& 0xFF00 ≠ address &&& 0xFF00), c)
  | AddressingMode.AbsoluteY =>
      let address := read_u16 c c.pc
      let c := { c with addr_abs := (address + c.y) % 65536,
                        pc := (c.pc + 2) % 65536 }
      (decide (c.addr_abs &&& 0xFF00 ≠ address &&& 0xFF00), c)
  | AddressingMode.Immediate =>
      (false, { c with addr_abs := c.pc, pc := (c.pc + 1) % 65536 })
  | AddressingMode.Implied =>
      (false, { c with fetched_data := c.a })
  | AddressingMode.Indirect =>
      let addr_lo := read c c.pc
      let addr_hi := read c (c.pc + 1)
      let addr := (addr_hi <<< 8) ||| addr_lo
      let c :=
        if addr_lo = 0xFF then
          { c with addr_abs := ((read c (addr &&& 0xFF00)) <<< 8) ||| read c addr }
        else
          { c with addr_abs := ((read c (addr + 1)) <<< 8) ||| read c addr }
      (false, { c with pc := (c.pc + 2) % 65536 })
  | AddressingMode.IndexedIndirect =>
      let temp := read c c.pc
      let lo := read c (temp + c.x)
      let hi := read c (temp + c.x + 1)
      (false, { c with addr_abs := (hi <<< 8) ||| lo, pc := (c.pc + 1) % 65536 })
  | AddressingMode.IndirectIndexed =>
      let temp := read c c.pc
      let lo := read c temp
      let hi := read c (temp + 1)
      let c := { c with addr_abs := (hi <<< 8) ||| lo, pc := (c.pc + 1) % 65536 }
      (decide (c.addr_abs &&& 0xFF00 ≠ (hi <<< 8)), c)
  | AddressingMode.Relative =>
      let c := { c with addr_rel := read c c.pc, pc := (c.pc + 1) % 65536 }
      let c :=
        if c.addr_rel &&& 0x80 > 0 then { c with addr_rel := c.addr_rel ||| 0xFF00 }
        else c
      (false, c)
  | AddressingMode.ZeroPage =>
      (false, { c with addr_abs := (read c c.pc) &&& 0xFF, pc := (c.pc + 1) % 65536 })
  | AddressingMode.ZeroPageX =>
      (false, { c with addr_abs := (read c c.pc + c.x) &&& 0xFF,
                       pc := (c.pc + 1) % 65536 })
  | AddressingMode.ZeroPageY =>
      (false, { c with addr_abs := (read c c.pc + c.y) &&& 0xFF,
                       pc := (c.pc + 1) % 65536 })

/-- A u16 wrapping subtraction: `(a - b) mod 2^16` computed inside Nat. -/
def wrapping_sub16 (a b : Nat) : Nat := (a + 65536 - b % 65536) % 65536

/-- The `lda` handler of instructions.rs: load fetched byte into A, set
N and Z, report one extra cycle. -/
def lda (c : Cpu) : Nat × Cpu :=
  let c := (fetch c).2
  let c := { c with a := c.fetched_data }
  (1, set_zn_flags c c.a)

/-- The `adc` handler of instructions.rs, written branch for branch.  The
binary path for variant ≠ NES is empty: only the conditional zero-flag set
and the accumulator assignment happen there. -/
def adc (c : Cpu) : Nat × Cpu :=
  let c := (fetch c).2
  let temp := c.a + c.fetched_data + (if get_flag c carryBit then 1 else 0)
  let c := if temp &&& 0xFF = 0 then set_flag c zeroBit true else c
  if c.variant ≠ Variant.NES then
    if get_flag c decimalBit then
      let temp :=
        if (c.a &&& 0xF) + (c.fetched_data &&& 0xF) +
            (if get_flag c carryBit then 1 else 0) > 9 then temp + 6
        else temp
      let c := if temp &&& 0x80 > 0 then set_flag c negativeBit true else c
      let c := set_flag c overflowBit
        (decide ((c.a ^^^ c.fetched_data) &&& 0x80 = 0) &&
         decide ((c.fetched_data ^^^ (temp &&& 0xFF)) &&& 0x80 ≠ 0))
      let temp := if temp > 99 then temp + 96 else temp
      let c := set_flag c carryBit (decide (temp > 0x99FF))
      (1, { c with a := temp &&& 0xFF })
    else
      (0, { c with a := temp &&& 0xFF })
  else
    let c := set_flag c negativeBit (decide (temp &&& 0x80 > 0))
    let c := set_flag c overflowBit (decide ((c.a ^^^ c.fetched_data) &&& 0x80 > 0))
    let c := set_flag c carryBit (decide (temp > 255))
    (0, { c with a := temp &&& 0xFF })

/-- The `sbc` handler of instructions.rs, written branch for branch: the
difference is `A - M - C` through u16 wrapping subtraction, the zero flag
is set from the low byte, and the binary path for variant ≠ NES updates no
other flag. -/
def sbc (c : Cpu) : Nat × Cpu :=
  let c := (fetch c).2
  let temp := wrapping_sub16 (wrapping_sub16 c.a c.fetched_data)
    (if get_flag c carryBit then 1 else 0)
  let c := set_flag c zeroBit (decide (temp &&& 0xFF = 0))
  if c.variant ≠ Variant.NES then
    if get_flag c decimalBit then
      let temp := if temp &&& 0xF > 0x9 then temp - 0x6 else temp
      let c := set_flag c negativeBit (decide (temp &&& 0x80 > 0))
      let c := set_flag c overflowBit
        (decide (((c.a ^^^ (temp &&& 0xFF)) &&&
          (c.fetched_data ^^^ (temp &&& 0xFF)) &&& 0x80) > 0))
      let temp := if temp > 0x99FF then (temp + 0x60) % 65536 else temp
      let c := set_flag c carryBit (decide (temp > 0x99FF))
      (1, { c with a := temp &&& 0xFF })
    else
      (0, { c with a := temp &&& 0xFF })
  else
    let c := set_flag c negativeBit (decide (temp &&& 0x80 > 0))
    let c := set_flag c overflowBit
      (decide ((c.a ^^^ c.fetched_data) &&& 0x80 ≠ 0) &&
       decide ((c.fetched_data ^^^ (temp &&& 0xFF)) &&& 0x80 = 0))
    let c := set_flag c carryBit (decide (temp > 255))
    (0, { c with a := temp &&& 0xFF })

/-- The `php` handler of instructions.rs: the pushed byte ORs in the break
and unused flags as the 0/1 values of `bool as u8`, exactly as the source
does, then clears both flags in the live status. -/
def php (c : Cpu) : Nat × Cpu :=
  let c := push c (c.status ||| (if get_flag c breakBit then 1 else 0) |||
    (if get_flag c unusedBit then 1 else 0))
  let c := set_flag c breakBit false
  let c := set_flag c unusedBit false
  (0, c)

/-- The `brk` handler of instructions.rs. -/
def brk (c : Cpu) : Nat × Cpu :=
  let c := { c with pc := (c.pc + 1) % 65536 }
  let c := set_flag c interruptDisableBit true
  let c := push_word c c.pc
  let c := set_flag c breakBit true
  let c := push c c.status
  let c := set_flag c breakBit false
  let c := { c with pc := read_u16 c IRQ_VECTOR }
  (0, c)

/-- The `kil` handler of instructions.rs: a TODO stub that does nothing
and returns 0 extra cycles. -/
def kil (c : Cpu) : Nat × Cpu := (0, c)

/-- The restriction of `INSTRUCTION_LIST` to the opcodes exercised by the
theorems below, giving (base cycles, addressing mode, handler):
0x02 = KIL, Implied, 2; 0x69 = ADC, Immediate, 2; 0xA9 = LDA, Immediate, 2. -/
def instruction_entry (opcode : Nat) :
    Option (Nat × AddressingMode × (Cpu → Nat × Cpu)) :=
  if opcode = 0x02 then some (2, AddressingMode.Implied, kil)
  else if opcode = 0x69 then some (2, AddressingMode.Immediate, adc)
  else if opcode = 0xA9 then some (2, AddressingMode.Immediate, lda)
  else none

/-- Cpu::clock of lib.rs: when the countdown hits zero the next opcode is
fetched, its addressing mode and handler run, and the countdown is reloaded
with base + addressing extra + handler extra; every call then decrements
the countdown.  `none` signals an opcode outside the embedded table
subset.  The disassembly trace at the top of the source function only
writes `current_instruction_string`, which is not tracked. -/
def clock (c : Cpu) : Option Cpu :=
  if c.cycles = 0 then
    match instruction_entry (read c c.pc) with
    | some (cyc, mode, f) =>
        let c := { c with opcode := read c c.pc }
        let c := { c with pc := (c.pc + 1) % 65536 }
        let c := { c with cycles := cyc, addr_mode := mode }
        let (extra, c) := AddressingMode.execute mode c
        let (extra2, c) := f c
        let c := { c with cycles := c.cycles + (if extra then 1 else 0) + extra2 }
        some { c with cycles := c.cycles - 1 }
    | none => none
  else
    some { c with cycles := c.cycles - 1 }

/-- Iterated `clock` ticks. -/
def clocks (n : Nat) (c : Cpu) : Option Cpu :=
  match n with
  | 0 => some c
  | n + 1 => (clock c).bind (clocks n)

end Lib6502

namespace Core6502

/-- Status flags of registers.rs as eight booleans. -/
structure StatusFlags where
  negative : Bool
  overflow : Bool
  unused : Bool
  break_mode : Bool
  decimal_mode : Bool
  interrupt_disable : Bool
  zero : Bool
  carry : Bool
deriving DecidableEq

/-- StatusFlags::new of registers.rs: every flag clear except unused. -/
def StatusFlags.new : StatusFlags :=
  { negative := false, overflow := false, unused := true, break_mode := false,
    decimal_mode := false, interrupt_disable := false, zero := false,
    carry := false }

/-- StatusFlags::to_byte of registers.rs: pack into the N V U B D I Z C
bit layout. -/
def StatusFlags.to_byte (s : StatusFlags) : Nat :=
  (if s.negative then 1 <<< 7 else 0) |||
  (if s.overflow then 1 <<< 6 else 0) |||
  (if s.unused then 1 <<< 5 else 0) |||
  (if s.break_mode then 1 <<< 4 else 0) |||
  (if s.decimal_mode then 1 <<< 3 else 0) |||
  (if s.interrupt_disable then 1 <<< 2 else 0) |||
  (if s.zero then 1 <<< 1 else 0) |||
  (if s.carry then 1 else 0)

/-- The register file of registers.rs. -/
structure Registers where
  a : Nat
  x : Nat
  y : Nat
  sp : Nat
  pc : Nat
  status : StatusFlags

/-- Registers::new of registers.rs. -/
def Registers.new : Registers :=
  { a := 0, x := 0, y := 0, sp := 0xFD, pc := 0x0000, status := StatusFlags.new }

/-- The `CPU<B: Bus>` of cpu.rs with its bus modelled as a memory
function; the decode table of `init_instruction_table` is the function
`instruction_table` below. -/
structure CPU where
  registers : Registers
  mem : Nat → Nat
  cycles : Nat

/-- CPU::new of cpu.rs: default registers, zero cycle count. -/
def CPU.new (m : Nat → Nat) : CPU :=
  { registers := Registers.new, mem := m, cycles := 0 }

/-- A bus write. -/
def busWrite (c : CPU) (addr v : Nat) : CPU :=
  { c with mem := fun i => if i = addr then v else c.mem i }

/-- CPU::reset of cpu.rs: PC from 0xFFFC/0xFFFD, SP to 0xFD, status to
StatusFlags::new, cycle count to zero. -/
def reset (c : CPU) : CPU :=
  let lo := c.mem 0xFFFC
  let hi := c.mem 0xFFFD
  { c with
    registers := { c.registers with
                   pc := (hi <<< 8) ||| lo,
                   sp := 0xFD,
                   status := StatusFlags.new },
    cycles := 0 }

/-- CPU::fetch_byte: read at PC, then increment PC with u16 wrap. -/
def fetch_byte (c : CPU) : Nat × CPU :=
  (c.mem c.registers.pc,
   { c with registers := { c.registers with pc := (c.registers.pc + 1) % 65536 } })

/-- CPU::fetch_word: low byte then high byte. -/
def fetch_word (c : CPU) : Nat × CPU :=
  let (lo, c) := fetch_byte c
  let (hi, c) := fetch_byte c
  ((hi <<< 8) ||| lo, c)

/-- CPU::stack_push: write at 0x0100 + SP, then u8-wrapping decrement SP. -/
def stack_push (c : CPU) (data : Nat) : CPU :=
  let c := busWrite c (0x0100 + c.registers.sp) data
  { c with registers := { c.registers with sp := (c.registers.sp + 255) % 256 } }

/-- CPU::update_zero_and_negative_flags. -/
def update_zero_and_negative_flags (c : CPU) (result : Nat) : CPU :=
  { c with registers := { c.registers with status :=
      { c.registers.status with
        zero := decide (result = 0),
        negative := decide (result &&& 0x80 ≠ 0) } } }

/-- CPU::interrupt of cpu.rs: refuse a masked IRQ, push PCH then PCL, push
the status byte with the B bit cleared and the U bit set, set the
interrupt-disable flag, and load PC from the vector. -/
def interrupt (c : CPU) (nmi : Bool) : CPU :=
  if c.registers.status.interrupt_disable && !nmi then c
  else
    let c := stack_push c ((c.registers.pc >>> 8) &&& 0xFF)
    let c := stack_push c (c.registers.pc &&& 0xFF)
    let status := (c.registers.status.to_byte &&& (255 - 0x10)) ||| 0x20
    let c := stack_push c status
    let c := { c with registers := { c.registers with status :=
        { c.registers.status with interrupt_disable := true } } }
    let vector_address : Nat := if nmi then 0xFFFA else 0xFFFE
    let lo := c.mem vector_address
    let hi := c.mem (vector_address + 1)
    { c with registers := { c.registers with pc := (hi <<< 8) ||| lo } }

/-- CPU::irq. -/
def irq (c : CPU) : CPU := interrupt c false

/-- CPU::nmi. -/
def nmi (c : CPU) : CPU := interrupt c true

/-- The accumulator addressing mode of addressing_modes.rs. -/
def accumulator (c : CPU) : (Nat × Nat) × CPU := ((0, 0), c)

/-- The implied addressing mode. -/
def implied (c : CPU) : (Nat × Nat) × CPU := ((0, 0), c)

/-- The absolute addressing mode. -/
def absolute (c : CPU) : (Nat × Nat) × CPU :=
  let (addr, c) := fetch_word c
  ((addr, 0), c)

/-- The absolute,X addressing mode: u16-wrapping add of X, one extra cycle
when the page changes. -/
def absolute_x (c : CPU) : (Nat × Nat) × CPU :=
  let (base, c) := fetch_word c
  let addr := (base + c.registers.x) % 65536
  ((addr, if base &&& 0xFF00 ≠ addr &&& 0xFF00 then 1 else 0), c)

/-- The absolute,Y addressing mode. -/
def absolute_y (c : CPU) : (Nat × Nat) × CPU :=
  let (base, c) := fetch_word c
  let addr := (base + c.registers.y) % 65536
  ((addr, if base &&& 0xFF00 ≠ addr &&& 0xFF00 then 1 else 0), c)

/-- The immediate addressing mode. -/
def immediate (c : CPU) : (Nat × Nat) × CPU :=
  let addr := c.registers.pc
  ((addr, 0),
   { c with registers := { c.registers with pc := (c.registers.pc + 1) % 65536 } })

/-- The indirect addressing mode of addressing_modes.rs, with the NMOS
page-wrap defect: when the pointer's low byte is 0xFF the high byte of the
target comes from the start of the same page. -/
def indirect (c : CPU) : (Nat × Nat) × CPU :=
  let (ptr, c) := fetch_word c
  let lo := c.mem ptr
  let hi_address := if ptr &&& 0xFF = 0xFF then ptr &&& 0xFF00 else ptr + 1
  let hi := c.mem hi_address
  (((hi <<< 8) ||| lo, 0), c)

/-- The (zp,X) addressing mode: u8-wrapping adds. -/
def indirect_x (c : CPU) : (Nat × Nat) × CPU :=
  let (b, c) := fetch_byte c
  let ptr := (b + c.registers.x) % 256
  let lo := c.mem ptr
  let hi := c.mem ((ptr + 1) % 256)
  (((hi <<< 8) ||| lo, 0), c)

/-- The (zp),Y addressing mode: zero-page pointer with u8-wrapping high
pointer byte, u16-wrapping add of Y, one extra cycle on page cross. -/
def indirect_y (c : CPU) : (Nat × Nat) × CPU :=
  let (ptr, c) := fetch_byte c
  let lo := c.mem ptr
  let hi := c.mem ((ptr + 1) % 256)
  let base_addr := (hi <<< 8) ||| lo
  let addr := (base_addr + c.registers.y) % 65536
  ((addr, if base_addr &&& 0xFF00 ≠ addr &&& 0xFF00 then 1 else 0), c)

/-- The relative addressing mode: sign-extended offset added to the
post-increment PC with u16 wrap. -/
def relative (c : CPU) : (Nat × Nat) × CPU :=
  let (offset, c) := fetch_byte c
  let ext := if offset &&& 0x80 ≠ 0 then offset ||| 0xFF00 else offset
  ((((c.registers.pc + ext) % 65536), 0), c)

/-- The zero-page addressing mode. -/
def zero_page (c : CPU) : (Nat × Nat) × CPU :=
  let (addr, c) := fetch_byte c
  ((addr, 0), c)

/-- The zero-page,X addressing mode: u8-wrapping add. -/
def zero_page_x (c : CPU) : (Nat × Nat) × CPU :=
  let (b, c) := fetch_byte c
  (((b + c.registers.x) % 256, 0), c)

/-- The zero-page,Y addressing mode. -/
def zero_page_y (c : CPU) : (Nat × Nat) × CPU :=
  let (b, c) := fetch_byte c
  (((b + c.registers.y) % 256, 0), c)

/-- Modelled from the spec: the generic-CPU instruction handlers that
cpu.rs imports from `crate::instructions` (signature
`fn(&mut CPU<B>, u16) -> u8`) are not under src.  The spec says STA writes
the accumulator to the effective address, changes no flag, and contributes
no extra cycle of its own (stores pay the worst-case table cycle). -/
def sta (c : CPU) (addr : Nat) : Nat × CPU :=
  (0, busWrite c addr c.registers.a)

/-- Modelled from the spec: LDA writes the operand read into A and updates
N and Z; page-cross extra cycles come from the addressing-mode resolver,
so the handler itself returns 0. -/
def lda (c : CPU) (addr : Nat) : Nat × CPU :=
  let v := c.mem addr
  let c := { c with registers := { c.registers with a := v } }
  (0, update_zero_and_negative_flags c v)

/-- The entries of `init_instruction_table` used by the theorems below:
0x9D = STA, absolute_x, 5; 0xA9 = LDA, immediate, 2;
0xBD = LDA, absolute_x, 4. -/
def instruction_table (opcode : Nat) :
    Option ((CPU → Nat → Nat × CPU) × (CPU → (Nat × Nat) × CPU) × Nat) :=
  if opcode = 0x9D then some (sta, absolute_x, 5)
  else if opcode = 0xA9 then some (lda, immediate, 2)
  else if opcode = 0xBD then some (lda, absolute_x, 4)
  else none

/-- CPU::step of cpu.rs: fetch the opcode, resolve the addressing mode,
run the handler, and add base + addressing + handler cycles to the
cumulative counter — for every instruction, stores included.  `none`
signals an opcode outside the embedded table subset (the source panics
there). -/
def step (c : CPU) : Option CPU :=
  let (opcode, c) := fetch_byte c
  match instruction_table opcode with
  | some (instr, mode, base_cycles) =>
      let (r, c) := mode c
      let (instr_additional, c) := instr c r.1
      some { c with cycles := c.cycles + (base_cycles + r.2 + instr_additional) }
  | none => none

end Core6502

/-- A test bus holding the NMI vector 0x3000 and the IRQ vector 0x2000,
zero elsewhere. -/
def memInterrupt : Nat → Nat := fun a =>
  if a = 0xFFFA then 0x00 else if a = 0xFFFB then 0x30
  else if a = 0xFFFE then 0x00 else if a = 0xFFFF then 0x20 else 0

/-- A lib.rs Cpu about to take an interrupt: PC = 0x1234, SP = 0xFF, all
status flags clear. -/
def libInterruptCpu : Lib6502.Cpu :=
  { Lib6502.new memInterrupt with sp := 0xFF, pc := 0x1234 }

/-- The cpu.rs CPU in the matching state: PC = 0x1234, SP = 0xFF, status
fresh (only U set, I clear). -/
def coreInterruptCpu : Core6502.CPU :=
  { registers := { Core6502.Registers.new with sp := 0xFF, pc := 0x1234 },
    mem := memInterrupt, cycles := 0 }

/-- A test bus with reset vector 0x8000 and the program
A9 FF 69 01 (LDA number 0xFF; ADC number 0x01) at 0x8000. -/
def memAdcCarry : Nat → Nat := fun a =>
  if a = 0x8000 then 0xA9 else if a = 0x8001 then 0xFF
  else if a = 0x8002 then 0x69 else if a = 0x8003 then 0x01
  else if a = 0xFFFC then 0x00 else if a = 0xFFFD then 0x80 else 0

/-- A lib.rs Cpu running `sbc` with A = 0x10, carry set, decimal clear,
CMOS variant, immediate operand 0x50 at 0x9000. -/
def sbcTestCpu : Lib6502.Cpu :=
  { Lib6502.new (fun a => if a = 0x9000 then 0x50 else 0) with
    a := 0x10, status := 0x01,
    addr_mode := Lib6502.AddressingMode.Immediate, addr_abs := 0x9000 }

/-- A test bus for the (zp),Y resolvers: operand byte 0x10 at 0x9000, and
the zero-page pointer 0x10/0x11 holding the base address 0x00FF. -/
def memZpY : Nat → Nat := fun a =>
  if a = 0x9000 then 0x10 else if a = 0x10 then 0xFF
  else if a = 0x11 then 0x00 else 0

/-- The cpu.rs CPU at PC = 0x9000 with Y = 5 on that bus. -/
def coreZpYCpu : Core6502.CPU :=
  { registers := { Core6502.Registers.new with y := 5, pc := 0x9000 },
    mem := memZpY, cycles := 0 }

/-- The lib.rs Cpu at PC = 0x9000 with Y = 5 on that bus. -/
def libZpYCpu : Lib6502.Cpu :=
  { Lib6502.new memZpY with y := 5, pc := 0x9000 }

/-- A test bus holding only the reset vector 0x8000. -/
def memResetVec : Nat → Nat := fun a =>
  if a = 0xFFFC then 0x00 else if a = 0xFFFD then 0x80 else 0

/-- A test bus with the program 9D FF 10 (STA 0x10FF,X) at 0x8000. -/
def memStaAbsX : Nat → Nat := fun a =>
  if a = 0x8000 then 0x9D else if a = 0x8001 then 0xFF
  else if a = 0x8002 then 0x10 else 0

/-- The cpu.rs CPU about to run STA 0x10FF,X with X = 1 (page cross) and
A = 0xAB. -/
def staCrossCpu : Core6502.CPU :=
  { registers := { Core6502.Registers.new with a := 0xAB, x := 1, pc := 0x8000 },
    mem := memStaAbsX, cycles := 0 }

/-- The same CPU with X = 0 (no page cross). -/
def staNoCrossCpu : Core6502.CPU :=
  { registers := { Core6502.Registers.new with a := 0xAB, x := 0, pc := 0x8000 },
    mem := memStaAbsX, cycles := 0 }

/-- A lib.rs Cpu with every status flag clear and SP = 0xFD, about to run
PHP. -/
def phpTestCpu : Lib6502.Cpu :=
  { Lib6502.new (fun _ => 0) with sp := 0xFD }

/-- A lib.rs Cpu with every status flag clear, PC = 0x8000, SP = 0xFD and
IRQ vector 0x9000, about to run BRK. -/
def brkTestCpu : Lib6502.Cpu :=
  { Lib6502.new (fun a => if a = 0xFFFE then 0x00
      else if a = 0xFFFF then 0x90 else 0) with sp := 0xFD, pc := 0x8000 }

/-- A test bus with reset vector 0x8000 and the program 02 A9 42
(KIL; LDA number 0x42) at 0x8000. -/
def memKil : Nat → Nat := fun a =>
  if a = 0x8000 then 0x02 else if a = 0x8001 then 0xA9
  else if a = 0x8002 then 0x42
  else if a = 0xFFFC then 0x00 else if a = 0xFFFD then 0x80 else 0

/-- A test bus for the indirect-JMP bug: pointer operand 0x10FF at
0x4000, target low byte 0x00 at 0x10FF, target high byte 0x80 at 0x1000
(same page), and a decoy 0xEE at 0x1100 that a correct page-wrap must
ignore. -/
def memJmpBug : Nat → Nat := fun a =>
  if a = 0x4000 then 0xFF else if a = 0x4001 then 0x10
  else if a = 0x10FF then 0x00 else if a = 0x1000 then 0x80
  else if a = 0x1100 then 0xEE else 0

/-- The cpu.rs CPU at PC = 0x4000 on that bus. -/
def coreJmpCpu : Core6502.CPU :=
  { registers := { Core6502.Registers.new with pc := 0x4000 },
    mem := memJmpBug, cycles := 0 }

/-- The lib.rs Cpu at PC = 0x4000 on that bus. -/
def libJmpCpu : Lib6502.Cpu :=
  { Lib6502.new memJmpBug with pc := 0x4000 }

/-- The property claim C9 asserts of the two indirect-JMP resolvers: when
the operand word's low byte is 0xFF the high byte of the jump target is
read from the start of the operand's own page (0xXX00 = 256 * high
operand byte), and otherwise from pointer + 1; in both cases the low byte
of the target comes from the pointer itself. -/
def IndirectBugSpec (c : Core6502.CPU) (d : Lib6502.Cpu) : Prop :=
  let b0 := c.mem c.registers.pc
  let b1 := c.mem ((c.registers.pc + 1) % 65536)
  let ptr := (b1 <<< 8) ||| b0
  let ea := (Core6502.indirect c).1.1
  let a0 := d.mem d.pc
  let a1 := d.mem (d.pc + 1)
  let optr := (a1 <<< 8) ||| a0
  let oea := (Lib6502.AddressingMode.execute
    Lib6502.AddressingMode.Indirect d).2.addr_abs
  (b0 = 0xFF → ea >>> 8 = c.mem (256 * b1) ∧ ea % 256 = c.mem ptr) ∧
  (b0 ≠ 0xFF → ea >>> 8 = c.mem (ptr + 1) ∧ ea % 256 = c.mem ptr) ∧
  (a0 = 0xFF → oea >>> 8 = d.mem (256 * a1) ∧ oea % 256 = d.mem optr) ∧
  (a0 ≠ 0xFF → oea >>> 8 = d.mem (optr + 1) ∧ oea % 256 = d.mem optr)

/-- A lib.rs Cpu in binary mode (CMOS, decimal clear) with N, V and C set
(status 0xC1), A = 7 and immediate operand 0xF9 at 0x5000, used to witness
the ADC frame-effect theorem. -/
def adcFrameCpu : Lib6502.Cpu :=
  { Lib6502.new (fun a => if a = 0x5000 then 0xF9 else 0) with
    a := 0x07, status := 0xC1,
    addr_mode := Lib6502.AddressingMode.Immediate, addr_abs := 0x5000 }

/-- The property claim C10 asserts of one execution of the lib.rs `adc`
handler in non-NES binary mode: the carry, overflow and negative bits of
the status register are unchanged, the zero bit is the old zero bit OR'd
with "low byte of A + M + C is zero" (so it is never cleared), the
accumulator receives that low byte, and X, Y, SP, PC and the memory are
untouched. -/
def AdcBinaryFrameSpec (c : Lib6502.Cpu) : Prop :=
  let c' := (Lib6502.adc c).2
  let m := (Lib6502.fetch c).1
  let sum := c.a + m + (if Lib6502.get_flag c Lib6502.carryBit then 1 else 0)
  c'.status.testBit 0 = c.status.testBit 0 ∧
  c'.status.testBit 6 = c.status.testBit 6 ∧
  c'.status.testBit 7 = c.status.testBit 7 ∧
  c'.status.testBit 1 = (c.status.testBit 1 || decide (sum &&& 0xFF = 0)) ∧
  c'.a = sum &&& 0xFF ∧
  c'.x = c.x ∧ c'.y = c.y ∧ c'.sp = c.sp ∧ c'.pc = c.pc ∧ c'.mem = c.mem

/-- C1: evaluation at the failing input.  On the same NMI request the
cpu.rs CPU behaves as the claim states — it pushes PCH then PCL, pushes
the status byte 0x20 (B = 0, U = 1), ends with the interrupt-disable flag
set and loads PC from 0xFFFA — while the lib.rs Cpu pushes a status byte
whose bit 4 (B) is 1 and ends with the interrupt-disable flag cleared,
contradicting the claim. -/
theorem interrupt_stacking_divergence :
    ((Core6502.nmi coreInterruptCpu).mem 0x01FF = 0x12 ∧
     (Core6502.nmi coreInterruptCpu).mem 0x01FE = 0x34 ∧
     (Core6502.nmi coreInterruptCpu).mem 0x01FD = 0x20 ∧
     (Core6502.nmi coreInterruptCpu).mem 0x01FD &&& 0x10 = 0 ∧
     (Core6502.nmi coreInterruptCpu).mem 0x01FD &&& 0x20 = 0x20 ∧
     (Core6502.nmi coreInterruptCpu).registers.status.interrupt_disable = true ∧
     (Core6502.nmi coreInterruptCpu).registers.pc = 0x3000) ∧
    ((Lib6502.nmi libInterruptCpu).mem 0x01FD &&& 0x10 = 0x10 ∧
     (Lib6502.nmi libInterruptCpu).status &&& 0x04 = 0) := by decide

/-- C2: evaluation at the failing input.  Running A9 FF 69 01 from reset
(carry initially 0, CMOS variant) on the lib.rs implementation: after the
first instruction A = 0xFF as claimed, but after the second the carry flag
is still 0 and N is still 1 — the binary-mode `adc` of instructions.rs
updates neither C nor N nor V — where the claim requires C = 1 and N = 0
(A = 0x00, Z = 1 and V = 0 do hold). -/
theorem adc_carry_scenario_divergence :
    ((Lib6502.clocks 9 (Lib6502.reset (Lib6502.new memAdcCarry))).map
      (fun c => (c.a, c.pc)) = some (0xFF, 0x8002)) ∧
    ((Lib6502.clocks 12 (Lib6502.reset (Lib6502.new memAdcCarry))).map
      (fun c => (c.a, c.status &&& 0x01, c.status &&& 0x02,
                 c.status &&& 0x80, c.status &&& 0x40)) =
      some (0x00, 0x00, 0x02, 0x80, 0x00)) := by decide

/-- C3: evaluation at the failing input.  With A = 0x10, M = 0x50, C = 1
in binary mode (CMOS), the `sbc` of instructions.rs computes
A - M - C = 0xBF (the claim's diff = A - M - (1-C) gives 0xC0) and leaves
the carry at 1 and N at 0, where the claim requires C = 0 (borrow) and
N = 1 from the result. -/
theorem sbc_binary_divergence :
    (Lib6502.sbc sbcTestCpu).2.a = 0xBF ∧
    (Lib6502.sbc sbcTestCpu).2.status &&& 0x01 = 0x01 ∧
    (Lib6502.sbc sbcTestCpu).2.status &&& 0x80 = 0 ∧
    (Lib6502.sbc sbcTestCpu).2.status &&& 0x40 = 0 := by decide

/-- C4: evaluation at the failing input.  With operand byte 0x10, zero
page 0x10/0x11 holding the base 0x00FF and Y = 5, the addressing_modes.rs
resolver conforms to the claim (effective address 0x0104 = base + Y, one
page-cross cycle, PC advanced by 1), while the addressing.rs
IndirectIndexed resolver never adds Y — it leaves the address at 0x00FF —
and never reports a crossing, contradicting the claim. -/
theorem indirect_indexed_divergence :
    ((Core6502.indirect_y coreZpYCpu).1 = (0x0104, 1) ∧
     (Core6502.indirect_y coreZpYCpu).2.registers.pc = 0x9001) ∧
    ((Lib6502.AddressingMode.execute
        Lib6502.AddressingMode.IndirectIndexed libZpYCpu).2.addr_abs = 0x00FF ∧
     (Lib6502.AddressingMode.execute
        Lib6502.AddressingMode.IndirectIndexed libZpYCpu).1 = false ∧
     (Lib6502.AddressingMode.execute
        Lib6502.AddressingMode.IndirectIndexed libZpYCpu).2.pc = 0x9001) := by decide

/-- C5: evaluation at the failing input.  On a bus whose reset vector is
0x8000, the lib.rs reset conforms to the claim (PC = 0x8000, SP = 0xFD,
P = 0x24 with I = 1 and U = 1), while the cpu.rs reset leaves the packed
status byte at 0x20: its StatusFlags::new keeps the interrupt-disable
flag clear, contradicting the claim. -/
theorem reset_status_divergence :
    ((Lib6502.reset (Lib6502.new memResetVec)).pc = 0x8000 ∧
     (Lib6502.reset (Lib6502.new memResetVec)).sp = 0xFD ∧
     (Lib6502.reset (Lib6502.new memResetVec)).status = 0x24) ∧
    ((Core6502.reset (Core6502.CPU.new memResetVec)).registers.pc = 0x8000 ∧
     (Core6502.reset (Core6502.CPU.new memResetVec)).registers.sp = 0xFD ∧
     (Core6502.reset (Core6502.CPU.new memResetVec)).registers.status.to_byte
        = 0x20 ∧
     (Core6502.reset
        (Core6502.CPU.new memResetVec)).registers.status.interrupt_disable
        = false) := by decide

/-- C6: evaluation at the failing input.  STA 0x10FF,X (opcode 0x9D, base
5 cycles): with X = 1 the store crosses a page and cpu.rs `step` charges
6 cycles — the resolver's page-cross cycle is added to the store — while
the claim says stores always consume exactly the base cycle count; with
X = 0 the same store costs the base 5. -/
theorem sta_page_cross_cycle_divergence :
    ((Core6502.step staCrossCpu).map
      (fun c => (c.cycles, c.registers.pc, c.mem 0x1100)) =
      some (6, 0x8003, 0xAB)) ∧
    ((Core6502.step staNoCrossCpu).map
      (fun c => (c.cycles, c.mem 0x10FF)) = some (5, 0xAB)) := by decide

/-- C7: evaluation at the failing input.  With every status flag clear,
the `php` of instructions.rs pushes the byte 0x00 — its `bool as u8`
operands OR in 0/1 values instead of the 0x10/0x20 mask bits — so the
pushed byte has B = 0 and U = 0 where the claim requires B = 1 and U = 1;
`brk` pushes 0x14, whose U bit is likewise 0. -/
theorem pushed_status_byte_divergence :
    ((Lib6502.php phpTestCpu).2.mem 0x01FD = 0x00 ∧
     (Lib6502.php phpTestCpu).2.mem 0x01FD &&& 0x30 = 0) ∧
    ((Lib6502.brk brkTestCpu).2.mem 0x01FB = 0x14 ∧
     (Lib6502.brk brkTestCpu).2.mem 0x01FB &&& 0x20 = 0) := by decide

/-- C8: evaluation at the failing input.  Running 02 A9 42 from reset on
the lib.rs implementation: the ninth clock tick executes the KIL opcode
(a TODO stub) and merely advances PC to 0x8001; two ticks later the
following LDA number 0x42 is fetched and executed, loading A = 0x42 and
advancing PC to 0x8003 — the fetch-decode loop is not halted, and the
countdown keeps being reloaded, contradicting the claim. -/
theorem kil_does_not_halt :
    ((Lib6502.clocks 9 (Lib6502.reset (Lib6502.new memKil))).map
      (fun c => (c.pc, c.a)) = some (0x8001, 0x00)) ∧
    ((Lib6502.clocks 11 (Lib6502.reset (Lib6502.new memKil))).map
      (fun c => (c.pc, c.a)) = some (0x8003, 0x42)) := by decide

/-- Splitting a little-endian word: when the low byte is a byte, the OR of
a shifted high part and the low byte is their sum. -/
theorem word_or_eq_add (hi lo : Nat) (h : lo < 256) :
    (hi <<< 8) ||| lo = 256 * hi + lo := by
  have h8 : lo < 2 ^ 8 := h
  have hs : hi <<< 8 = 2 ^ 8 * hi := by
    rw [Nat.shiftLeft_eq]; ring
  rw [hs, ← Nat.mul_add_lt_is_or h8 hi]

/-- High-byte extraction from a little-endian word. -/
theorem word_shiftRight8 (hi lo : Nat) (h : lo < 256) :
    ((hi <<< 8) ||| lo) >>> 8 = hi := by
  rw [word_or_eq_add hi lo h, Nat.shiftRight_eq_div_pow]
  norm_num
  omega

/-- Low-byte extraction from a little-endian word. -/
theorem word_mod256 (hi lo : Nat) (h : lo < 256) :
    ((hi <<< 8) ||| lo) % 256 = lo := by
  rw [word_or_eq_add hi lo h]
  omega

/-- Masking with 0xFF is reduction mod 256. -/
theorem and255_eq_mod (x : Nat) : x &&& 255 = x % 256 := by
  have h := Nat.and_pow_two_sub_one_eq_mod x 8
  norm_num at h
  exact h

/-- Bitwise AND distributes over a common left shift. -/
theorem shl_and_shl (a b n : Nat) : (a <<< n) &&& (b <<< n) = (a &&& b) <<< n := by
  apply Nat.eq_of_testBit_eq
  intro i
  rw [Nat.testBit_and, Nat.testBit_shiftLeft, Nat.testBit_shiftLeft,
      Nat.testBit_shiftLeft, Nat.testBit_and]
  by_cases h : n ≤ i <;> simp [h]

/-- A byte has no bits in the 0xFF00 mask. -/
theorem low_and_FF00 (lo : Nat) (h : lo < 256) : lo &&& 0xFF00 = 0 := by
  apply Nat.eq_of_testBit_eq
  intro i
  rw [Nat.testBit_and, Nat.zero_testBit]
  by_cases h8 : i < 8
  · have hb : Nat.testBit 0xFF00 i = false := by
      interval_cases i <;> decide
    rw [hb, Bool.and_false]
  · have hlo : Nat.testBit lo i = false := by
      apply Nat.testBit_lt_two_pow
      calc lo < 256 := h
        _ = 2 ^ 8 := by norm_num
        _ ≤ 2 ^ i := Nat.pow_le_pow_right (by norm_num) (Nat.not_lt.mp h8)
    rw [hlo, Bool.false_and]

/-- Page extraction: masking a little-endian word of two bytes with 0xFF00
yields the page base 256 * high byte. -/
theorem word_and_FF00 (hi lo : Nat) (hh : hi < 256) (h : lo < 256) :
    ((hi <<< 8) ||| lo) &&& 0xFF00 = 256 * hi := by
  rw [Nat.and_distrib_right, low_and_FF00 lo h, Nat.or_zero]
  rw [show (0xFF00 : Nat) = 255 <<< 8 by decide, shl_and_shl]
  rw [and255_eq_mod, Nat.mod_eq_of_lt hh, Nat.shiftLeft_eq]
  ring

/-- ORing in the zero-flag bit leaves any bit other than bit 1 unchanged. -/
theorem or_two_testBit (s i : Nat) (h : Nat.testBit 2 i = false) :
    (s ||| 2).testBit i = s.testBit i := by
  rw [Nat.testBit_or, h, Bool.or_false]

/-- ORing in the zero-flag bit sets bit 1. -/
theorem or_two_testBit_one (s : Nat) : (s ||| 2).testBit 1 = true := by
  rw [Nat.testBit_or, show Nat.testBit 2 1 = true by decide, Bool.or_true]

/-- ORing in the zero-flag bit does not disturb the decimal-flag mask. -/
theorem or_two_and_eight (s : Nat) : (s ||| 2) &&& 8 = s &&& 8 := by
  rw [Nat.and_distrib_right, show (2 : Nat) &&& 8 = 0 by decide, Nat.or_zero]

/-- Fetching leaves everything but `fetched_data` unchanged and stores the
returned byte there. -/
theorem fetch_eq (c : Lib6502.Cpu) :
    (Lib6502.fetch c).2 = { c with fetched_data := (Lib6502.fetch c).1 } := by
  unfold Lib6502.fetch
  split <;> rfl

/-- C9: both indirect-JMP resolvers implement the NMOS page-wrap defect:
for every CPU state and bus (operand and target-low cells holding bytes),
when the pointer's low byte is 0xFF the high byte of the jump target is
fetched from the start of the pointer's own page, and for every other
pointer from pointer + 1; the low byte always comes from the pointer
itself. -/
theorem indirect_jmp_page_wrap (c : Core6502.CPU) (d : Lib6502.Cpu)
    (hb0 : c.mem c.registers.pc < 256)
    (hb1 : c.mem ((c.registers.pc + 1) % 65536) < 256)
    (hlo : c.mem ((c.mem ((c.registers.pc + 1) % 65536) <<< 8) |||
      c.mem c.registers.pc) < 256)
    (ha0 : d.mem d.pc < 256)
    (ha1 : d.mem (d.pc + 1) < 256)
    (holo : d.mem ((d.mem (d.pc + 1) <<< 8) ||| d.mem d.pc) < 256) :
    IndirectBugSpec c d := by
  unfold IndirectBugSpec
  simp only [Core6502.indirect, Core6502.fetch_word, Core6502.fetch_byte,
             Lib6502.AddressingMode.execute, Lib6502.read]
  refine ⟨?_, ?_, ?_, ?_⟩
  · intro h
    have hcond : ((c.mem ((c.registers.pc + 1) % 65536) <<< 8) |||
        c.mem c.registers.pc) &&& 0xFF = 0xFF := by
      rw [and255_eq_mod, word_mod256 _ _ hb0, h]
    rw [if_pos hcond, word_and_FF00 _ _ hb1 hb0]
    exact ⟨word_shiftRight8 _ _ hlo, word_mod256 _ _ hlo⟩
  · intro h
    have hcond : ¬(((c.mem ((c.registers.pc + 1) % 65536) <<< 8) |||
        c.mem c.registers.pc) &&& 0xFF = 0xFF) := by
      rw [and255_eq_mod, word_mod256 _ _ hb0]
      exact h
    rw [if_neg hcond]
    exact ⟨word_shiftRight8 _ _ hlo, word_mod256 _ _ hlo⟩
  · intro h
    rw [if_pos h, word_and_FF00 _ _ ha1 ha0]
    exact ⟨word_shiftRight8 _ _ holo, word_mod256 _ _ holo⟩
  · intro h
    rw [if_neg h]
    exact ⟨word_shiftRight8 _ _ holo, word_mod256 _ _ holo⟩

/-- C9 witness: the page-wrap property instantiated at the concrete
pointer 0x10FF with the target high byte 0x80 stored at 0x1000. -/
theorem indirect_jmp_page_wrap_witness : IndirectBugSpec coreJmpCpu libJmpCpu :=
  indirect_jmp_page_wrap coreJmpCpu libJmpCpu (by decide) (by decide)
    (by decide) (by decide) (by decide) (by decide)

/-- Reduction of set_flag with a literal true. -/
theorem set_flag_true (c : Lib6502.Cpu) (f : Nat) :
    Lib6502.set_flag c f true = { c with status := c.status ||| f } := rfl

/-- Reduction of set_flag with a literal false. -/
theorem set_flag_false (c : Lib6502.Cpu) (f : Nat) :
    Lib6502.set_flag c f false = { c with status := c.status &&& (255 - f) } := rfl

/-- Evaluation of the lib.rs `adc` handler in non-NES binary mode: the
handler returns 0 extra cycles, and the state changes only in
`fetched_data`, the conditional zero-flag OR, and the accumulator. -/
theorem adc_binary_eq (c : Lib6502.Cpu)
    (hne : c.variant ≠ Lib6502.Variant.NES)
    (hd : Lib6502.get_flag c Lib6502.decimalBit = false) :
    Lib6502.adc c =
      (0,
       { c with
         fetched_data := (Lib6502.fetch c).1,
         status :=
           if (c.a + (Lib6502.fetch c).1 +
               (if Lib6502.get_flag c Lib6502.carryBit then 1 else 0)) &&& 0xFF = 0
           then c.status ||| 2 else c.status,
         a := (c.a + (Lib6502.fetch c).1 +
               (if Lib6502.get_flag c Lib6502.carryBit then 1 else 0)) &&& 0xFF }) := by
  have hd' : ¬(c.status &&& 8 ≠ 0) := by
    simpa [Lib6502.get_flag, Lib6502.decimalBit] using hd
  unfold Lib6502.adc
  rw [fetch_eq]
  dsimp only [Lib6502.get_flag, Lib6502.carryBit, Lib6502.zeroBit,
    Lib6502.decimalBit]
  by_cases hz : (c.a + (Lib6502.fetch c).1 +
      (if decide (c.status &&& 1 ≠ 0) = true then 1 else 0)) &&& 0xFF = 0
  · rw [if_pos hz, if_pos hz, set_flag_true]
    dsimp only
    rw [if_pos hne]
    rw [if_neg (by simpa [or_two_and_eight] using hd' :
      ¬(decide ((c.status ||| 2) &&& 8 ≠ 0) = true))]
  · rw [if_neg hz, if_neg hz]
    dsimp only
    rw [if_pos hne]
    rw [if_neg (by simpa using hd' : ¬(decide (c.status &&& 8 ≠ 0) = true))]

/-- C10: for every execution of the lib.rs `adc` handler on a CPU whose
variant is NMOS or CMOS with the decimal flag clear, the carry, overflow
and negative flags are left exactly as they were, the zero flag is only
ever set (exactly when the low byte of A + M + C is zero), and besides the
accumulator (and Z) no register or memory cell changes. -/
theorem adc_binary_frame_effect (c : Lib6502.Cpu)
    (hv : c.variant = Lib6502.Variant.NMOS ∨ c.variant = Lib6502.Variant.CMOS)
    (hd : Lib6502.get_flag c Lib6502.decimalBit = false) :
    AdcBinaryFrameSpec c := by
  have hne : c.variant ≠ Lib6502.Variant.NES := by
    rcases hv with h | h <;> rw [h] <;> decide
  unfold AdcBinaryFrameSpec
  rw [adc_binary_eq c hne hd]
  dsimp only
  by_cases hz : (c.a + (Lib6502.fetch c).1 +
      (if Lib6502.get_flag c Lib6502.carryBit then 1 else 0)) &&& 0xFF = 0
  · rw [if_pos hz]
    refine ⟨or_two_testBit _ 0 (by decide), or_two_testBit _ 6 (by decide),
      or_two_testBit _ 7 (by decide), ?_, rfl, rfl, rfl, rfl, rfl, rfl⟩
    rw [or_two_testBit_one]
    simp [hz]
  · rw [if_neg hz]
    refine ⟨rfl, rfl, rfl, ?_, rfl, rfl, rfl, rfl, rfl, rfl⟩
    simp [hz]

/-- C10 witness: the frame-effect property instantiated at a CMOS CPU in
binary mode with N, V and C set and A + M + C = 0x101. -/
theorem adc_binary_frame_effect_witness : AdcBinaryFrameSpec adcFrameCpu :=
  adc_binary_frame_effect adcFrameCpu (Or.inr rfl) (by decide)
